import Mathlib

/-!
Shallow embedding of the `im` WebSocket fan-out broker (packages v0 and v1).

Connections are represented by numeric handles (`Nat`).  The v1
copy-on-write registry of `src/v1/im.go` is an association list from the
concatenated key `userID ++ deviceID` to a connection handle (the Go map,
read through `atomic.Value`, has at most one entry per key; the list order
stands in for the map's iteration order, which no claim depends on).  The
v0 registry of package v0 is a nested association list `userID ↦ (deviceID
↦ connection)`.  Side effects (closing connections, queue sends, pool
operations, log lines) are returned explicitly as lists of events.
-/

namespace IM

/-- UTF-8 encoding of one Unicode code point, as Go's `[]byte(string)`
conversion produces for each rune. -/
def utf8Bytes (c : Nat) : List Nat :=
  if c < 0x80 then [c]
  else if c < 0x800 then
    [0xC0 ||| (c >>> 6), 0x80 ||| (c &&& 0x3F)]
  else if c < 0x10000 then
    [0xE0 ||| (c >>> 12), 0x80 ||| ((c >>> 6) &&& 0x3F), 0x80 ||| (c &&& 0x3F)]
  else
    [0xF0 ||| (c >>> 18), 0x80 ||| ((c >>> 12) &&& 0x3F),
     0x80 ||| ((c >>> 6) &&& 0x3F), 0x80 ||| (c &&& 0x3F)]

/-- The byte sequence of a string (Go `[]byte(id)`). -/
def strBytes (s : String) : List Nat :=
  (s.data.map (fun c => utf8Bytes c.toNat)).flatten

/-- One step of the 32-bit FNV-1a hash: XOR the byte in, multiply by the
FNV prime, all modulo 2^32 (`hash/fnv`, New32a). -/
def fnv32aStep (h b : Nat) : Nat :=
  ((h ^^^ b) * 16777619) % 4294967296

/-- 32-bit FNV-1a over a byte sequence, starting from the offset basis. -/
def fnv32a (bytes : List Nat) : Nat :=
  bytes.foldl fnv32aStep 2166136261

/-- `hashIndex` from `src/v1/im.go` lines 81-85: FNV-1a of the user ID,
reduced modulo the pool count `N` (`numPools` in the source). -/
def hashIndex (N : Nat) (id : String) : Nat :=
  fnv32a (strBytes id) % N

/-- The `Message` struct.  `MBytes` (`json.RawMessage`, a byte slice that
may be nil) is modelled as `Option String`; `Receivers` as the decoded
list (Go nil slice = `[]`). -/
structure Message where
  At : Int
  Device : String
  Sender : String
  MBytes : Option String
  Receivers : List String
deriving DecidableEq, Repr

/-- The stamping done by `handleConnection` before routing
(`message.Device = device; message.Sender = userID`). -/
def stamp (userID device : String) (m : Message) : Message :=
  { m with Sender := userID, Device := device }

/-- v1 registry snapshot: concatenated key `userID ++ deviceID` to
connection handle. -/
abbrev Registry := List (String × Nat)

/-- `userDeviceJoin` of `src/v1/im.go` lines 87-104 (registry part): copy
every entry whose key differs from `userID+device`, close (collect) every
entry whose key matches, then install the new connection under the key.
Returns the stored snapshot and the list of closed connections. -/
def userDeviceJoin (userID device : String) (conn : Nat) (reg : Registry) :
    Registry × List Nat :=
  ((reg.filter (fun p => p.1 ≠ userID ++ device)) ++ [(userID ++ device, conn)],
   (reg.filter (fun p => p.1 = userID ++ device)).map (fun p => p.2))

/-- `userDeviceLeft` of `src/v1/im.go` lines 130-144: copy every entry
whose key differs from `userID+device`, close every entry whose key
matches.  Returns the stored snapshot and the closed connections. -/
def userDeviceLeft (userID device : String) (reg : Registry) :
    Registry × List Nat :=
  (reg.filter (fun p => p.1 ≠ userID ++ device),
   (reg.filter (fun p => p.1 = userID ++ device)).map (fun p => p.2))

/-- The sequence of shard-queue sends performed by `handleConnection`
(`src/v1/im.go` lines 122-126) for one decoded message: one send to
`hashIndex(r)` per receiver `r`, in order, then one send to the sender's
own shard.  No deduplication appears in the source. -/
def routeTargets (N : Nat) (sender : String) (receivers : List String) :
    List Nat :=
  receivers.map (hashIndex N) ++ [hashIndex N sender]

/-- The fan-out loop of `messageDispatcher` (`src/v1/im.go` lines
153-162) over one registry snapshot.  `fail conn` says whether the
`WriteJSON` to `conn` returns an error.  Entries whose key equals
`message.Sender+message.Device` are skipped; every other entry receives
exactly one write attempt; a failing write only produces a log entry.
Returns the attempted writes `(conn, message)` in registry order and the
logged failures. -/
def dispatchLoop (fail : Nat → Bool) (m : Message) :
    Registry → List (Nat × Message) × List Nat
  | [] => ([], [])
  | (k, conn) :: rest =>
    let r := dispatchLoop fail m rest
    if k = m.Sender ++ m.Device then r
    else ((conn, m) :: r.1, if fail conn then conn :: r.2 else r.2)

/-- One `messageDispatcher` queue receipt: the dispatcher loads the
snapshot, writes, and never stores a new snapshot, so the registry after
the pass is the registry before it. -/
def messageDispatcherStep (fail : Nat → Bool) (m : Message) (reg : Registry) :
    Registry × List (Nat × Message) × List Nat :=
  (reg, dispatchLoop fail m reg)

/-- Sharded broker state: shard index to registry snapshot. -/
abbrev Shards := Nat → Registry

/-- `HandleWebSocket` admission of `src/v1/im.go` lines 64-78 composed
with `userDeviceJoin`: the user's shard is `hashIndex N userID`, and only
that shard's registry changes. -/
def mgrJoin (N : Nat) (st : Shards) (userID device : String) (conn : Nat) :
    Shards :=
  fun s =>
    if s = hashIndex N userID then
      (userDeviceJoin userID device conn (st (hashIndex N userID))).1
    else st s

/-- End-to-end fan-out of one stamped message: the connections written by
the dispatcher passes of every shard-queue send the handler performs. -/
def fanOutConns (N : Nat) (fail : Nat → Bool) (st : Shards) (m : Message) :
    List Nat :=
  ((routeTargets N m.Sender m.Receivers).map
    (fun s => (dispatchLoop fail m (st s)).1.map (fun w => w.1))).flatten

/-- `putMessageToPool` of package v0 (part_001 lines 149-155): resets
`At`, `Sender`, `MBytes` and `Receivers` before returning the object to
the pool.  The source does not reset `Device`. -/
def putMessageToPool (m : Message) : Message :=
  { m with At := 0, Sender := "", MBytes := none, Receivers := [] }

/-- The zero-valued `Message` produced by the pool's `New` function. -/
def newMessage : Message :=
  { At := 0, Device := "", Sender := "", MBytes := none, Receivers := [] }

/-- `getMessageFromPool`: take a released object from the free list if
one is available, otherwise construct a fresh zero value. -/
def getMessageFromPool : List Message → Message × List Message
  | [] => (newMessage, [])
  | m :: rest => (m, rest)

/-- Outcome of one `conn.ReadJSON` call in the read loop: a decoded
message, or an error (decode failure or transport closure). -/
inductive ReadResult where
  | ok (m : Message)
  | err
deriving DecidableEq

/-- Observable effects of a connection handler: pool acquire, pool
release, a shard-queue send of a message, the deferred leave call. -/
inductive HEffect where
  | get
  | put
  | send (shard : Nat) (m : Message)
  | leave (userID device : String)
deriving DecidableEq

/-- The read loop of `handleConnection` (`src/v1/im.go` lines 106-128)
as an effect trace over a finite sequence of read outcomes.  Each
iteration acquires from the pool; a successful read stamps the message
and routes it; the first failing read breaks the loop and the deferred
cleanup calls leave once.  An exhausted trace with no error means the
loop is still blocked reading, so no leave has happened. -/
def handlerRun (N : Nat) (userID device : String) :
    List ReadResult → List HEffect
  | [] => []
  | .err :: _ => [.get, .leave userID device]
  | .ok m :: rest =>
    .get ::
      ((routeTargets N userID (stamp userID device m).Receivers).map
        (fun s => .send s (stamp userID device m))
      ++ handlerRun N userID device rest)

/-- The pool free list as the read loop consumes it: every iteration
acquires one object and nothing on the delivery path releases one. -/
def handlerRunPool (reads : List ReadResult) (pool : List Message) :
    List Message :=
  match reads with
  | [] => pool
  | .err :: _ => (getMessageFromPool pool).2
  | .ok _ :: rest => handlerRunPool rest (getMessageFromPool pool).2

/-- v0 registry: user ID to that user's device map `deviceID ↦ conn`. -/
abbrev V0Users := List (String × List (String × Nat))

/-- `userLeft` of package v0 (part_001 lines 137-141): delete the user's
record from the manager's map. -/
def v0UserLeft (userID : String) (users : V0Users) : V0Users :=
  users.filter (fun p => p.1 ≠ userID)

/-- `deviceLeft` of package v0 (part_001 lines 86-99) for a user whose
current device map is `ds`: close and delete the device's entry when
present, write the shrunken device map back into the user's record, and
when the device map has become empty delete the user's record entirely
via `userLeft`.  Returns the manager map afterwards and the closed
connections. -/
def v0DeviceLeft (userID device : String) (ds : List (String × Nat))
    (users : V0Users) : V0Users × List Nat :=
  let closed := (ds.filter (fun p => p.1 = device)).map (fun p => p.2)
  let ds2 := ds.filter (fun p => p.1 ≠ device)
  let users2 := users.map (fun p => if p.1 = userID then (p.1, ds2) else p)
  if ds2.isEmpty then (v0UserLeft userID users2, closed) else (users2, closed)

/-- Scenario state for the fan-out claim: users `u1` (devices `web` with
connection `1` and `mobile` with connection `2`) and `u2` (device `web`
with connection `3`), admitted through `HandleWebSocket`, so each user's
entries live in the shard `hashIndex N` assigns to the user. -/
def c1State (N : Nat) : Shards :=
  mgrJoin N
    (mgrJoin N (mgrJoin N (fun _ => []) "u1" "web" 1) "u1" "mobile" 2)
    "u2" "web" 3

/-- Scenario message for the fan-out claim: decoded with receiver list
`["u2"]` and arbitrary payload, then stamped by the handler of `u1/web`. -/
def c1Message (at0 : Int) (payload : Option String) : Message :=
  stamp "u1" "web"
    { At := at0, Device := "", Sender := "", MBytes := payload,
      Receivers := ["u2"] }

/-! Helper lemmas shared by the claim theorems. -/

/-- The dispatcher loop writes the message once to every entry whose key
is not `Sender+Device`, irrespective of which writes fail, and logs
exactly the failing ones. -/
theorem dispatchLoop_eq (fail : Nat → Bool) (m : Message) (reg : Registry) :
    dispatchLoop fail m reg =
      ((reg.filter (fun p => p.1 ≠ m.Sender ++ m.Device)).map (fun p => (p.2, m)),
       ((reg.filter (fun p => p.1 ≠ m.Sender ++ m.Device)).filter
         (fun p => fail p.2)).map (fun p => p.2)) := by
  induction reg with
  | nil => rfl
  | cons hd tl ih =>
    obtain ⟨k, conn⟩ := hd
    by_cases hk : k = m.Sender ++ m.Device
    · simp only [dispatchLoop, ih]
      simp [List.filter_cons, hk]
    · by_cases hf : fail conn
      · simp only [dispatchLoop, ih]
        simp [List.filter_cons, hk, hf]
      · simp only [dispatchLoop, ih]
        simp [List.filter_cons, hk, hf]

/-- In an association list with pairwise distinct keys, filtering for the
key of a member yields exactly that member. -/
theorem filter_key_of_nodup {α : Type} (l : List (String × α)) (k : String)
    (v : α) (hnd : (l.map Prod.fst).Nodup) (hm : (k, v) ∈ l) :
    l.filter (fun p => p.1 = k) = [(k, v)] := by
  induction l with
  | nil => cases hm
  | cons hd tl ih =>
    obtain ⟨k0, v0⟩ := hd
    simp only [List.map_cons, List.nodup_cons] at hnd
    rcases List.mem_cons.mp hm with h | h
    · rw [Prod.mk.injEq] at h
      obtain ⟨hk, hv⟩ := h
      subst hk
      subst hv
      have hfil : tl.filter (fun p => p.1 = k) = [] := by
        apply List.filter_eq_nil_iff.mpr
        intro p hp hdec
        simp only [decide_eq_true_eq] at hdec
        exact hnd.1 (List.mem_map.mpr ⟨p, hp, hdec⟩)
      simp [List.filter_cons, hfil]
    · have hk0 : ¬ (k0 = k) := by
        intro hkk
        subst hkk
        exact hnd.1 (List.mem_map.mpr ⟨(k0, v), h, rfl⟩)
      have hfil := ih hnd.2 h
      simp [List.filter_cons, hk0, hfil]

/-- Filtering keys equal to `k` after keys different from `k` leaves
nothing. -/
theorem filter_ne_then_eq {α : Type} (l : List (String × α)) (k : String) :
    (l.filter (fun p => p.1 ≠ k)).filter (fun p => p.1 = k) = [] := by
  apply List.filter_eq_nil_iff.mpr
  intro p hp
  have := (List.mem_filter.mp hp).2
  simp at this ⊢
  exact this

/-! Claim theorems. -/

/-- Claim C6: `hashIndex` is a total, deterministic pure function of the
user ID: for every user ID string, including the empty string, its result
is a valid shard index strictly below the shard count `N`, and admission
(`mgrJoin`) touches no shard other than `hashIndex N id` — the same index
the routing path computes — so independent components agree on the shard
of a user ID.  Determinism and statelessness hold because the embedding
of the source function is a pure function of `id` alone. -/
theorem hashIndex_total_and_agreeing (N : Nat) (id device : String)
    (conn : Nat) (st : Shards) (s : Nat) (hN : 0 < N)
    (hs : s ≠ hashIndex N id) :
    hashIndex N id < N ∧ mgrJoin N st id device conn s = st s := by
  refine ⟨Nat.mod_lt _ hN, ?_⟩
  simp [mgrJoin, hs]

/-- Witness for C6 at `N = 8` and the empty user ID. -/
theorem hashIndex_total_and_agreeing_witness :
    (0 < 8 ∧ 0 ≠ hashIndex 8 "") ∧
      (hashIndex 8 "" < 8 ∧
        mgrJoin 8 (fun _ => []) "" "web" 1 0 = (fun _ => ([] : Registry)) 0) :=
  ⟨⟨by decide, by decide⟩,
    hashIndex_total_and_agreeing 8 "" "web" 1 (fun _ => []) 0 (by decide)
      (by decide)⟩

/-- Claim C4 counterexample: the handler performs no deduplication of
shard-queue sends.  With `N = 8` shards, a message whose sender is `u1`
and whose receiver list is `["u1"]` (a receiver hashing to the sender's
own shard) makes the sender's shard receive the message twice, refuting
the claim that a single shard receives the message instance at most once
per message. -/
theorem routeTargets_no_dedup_counterexample :
    (routeTargets 8 "u1" ["u1"]).count (hashIndex 8 "u1") = 2 ∧
      ¬ (routeTargets 8 "u1" ["u1"]).count (hashIndex 8 "u1") ≤ 1 := by
  constructor
  · decide
  · decide

/-- Claim C4 (amended): for every message addressed to `K` receivers the
handler performs exactly `K + 1` shard-queue sends — one per receiver, in
order, plus one to the sender's shard — with no deduplication: a shard
index `s` receives the message once for every receiver hashing to `s`,
plus once more when the sender hashes to `s`, and each receipt triggers
its own dispatcher pass over that shard's registry. -/
theorem routeTargets_count (N : Nat) (sender : String)
    (receivers : List String) (s : Nat) :
    (routeTargets N sender receivers).length = receivers.length + 1 ∧
      (routeTargets N sender receivers).count s =
        (receivers.map (hashIndex N)).count s +
          (if hashIndex N sender = s then 1 else 0) := by
  constructor
  · simp [routeTargets]
  · rcases eq_or_ne (hashIndex N sender) s with h | h
    · simp [routeTargets, List.count_append, List.count_cons, h]
    · simp [routeTargets, List.count_append, List.count_cons, h, Ne.symm h]

/-- Claim C7: write-failure semantics of one dispatcher fan-out pass.
For every failure pattern `fail`, the registry after the pass equals the
registry before it (a failing write removes nothing), the attempted
writes are exactly one per non-originating registry entry and do not
depend on which writes fail (no retry, no aborted remainder), and the log
records exactly the failing connections. -/
theorem dispatcher_write_failure_semantics (fail : Nat → Bool) (m : Message)
    (reg : Registry) :
    (messageDispatcherStep fail m reg).1 = reg ∧
      (messageDispatcherStep fail m reg).2.1 =
        (reg.filter (fun p => p.1 ≠ m.Sender ++ m.Device)).map
          (fun p => (p.2, m)) ∧
      (messageDispatcherStep fail m reg).2.2 =
        ((reg.filter (fun p => p.1 ≠ m.Sender ++ m.Device)).filter
          (fun p => fail p.2)).map (fun p => p.2) := by
  refine ⟨rfl, ?_, ?_⟩
  · simp [messageDispatcherStep, dispatchLoop_eq]
  · simp [messageDispatcherStep, dispatchLoop_eq]

/-- Claim C8: handler stamping and frame.  Stamping a decoded message
overwrites `Sender` with the registered user ID and `Device` with the
registered device ID, leaves `MBytes`, `Receivers` and `At` exactly as
decoded, and the dispatcher writes the stamped message itself unchanged
to every targeted connection, so no component of the ingest path ever
sets the timestamp field. -/
theorem handler_stamping_frame (userID device : String) (m : Message)
    (fail : Nat → Bool) (reg : Registry) :
    (stamp userID device m).Sender = userID ∧
      (stamp userID device m).Device = device ∧
      (stamp userID device m).MBytes = m.MBytes ∧
      (stamp userID device m).Receivers = m.Receivers ∧
      (stamp userID device m).At = m.At ∧
      (dispatchLoop fail (stamp userID device m) reg).1 =
        (reg.filter
          (fun p => p.1 ≠ userID ++ device)).map
            (fun p => (p.2, stamp userID device m)) := by
  refine ⟨rfl, rfl, rfl, rfl, rfl, ?_⟩
  simp [dispatchLoop_eq, stamp]

/-- Claim C5 at the failing input: a `Message` carrying device `web` that
is released via `putMessageToPool` and then returned by
`getMessageFromPool` still carries `Device = "web"` — the release
operation of the source resets `At`, `Sender`, `MBytes` and `Receivers`
but not `Device`, so the re-acquired object is neither zero-valued nor
fully cleared. -/
theorem pool_release_keeps_device :
    (getMessageFromPool [putMessageToPool
        { At := 5, Device := "web", Sender := "u1", MBytes := some "hi",
          Receivers := ["u2"] }]).1 =
      { At := 0, Device := "web", Sender := "", MBytes := none,
        Receivers := [] } ∧
      (getMessageFromPool [putMessageToPool
        { At := 5, Device := "web", Sender := "u1", MBytes := some "hi",
          Receivers := ["u2"] }]).1.Device ≠ "" := by
  constructor
  · rfl
  · decide

/-- Claim C2: idempotent replace on join.  For every registry snapshot
with pairwise distinct keys (the Go map guarantees this) in which the
pair `(userID, device)` holds connection `c`, joining the pair with a new
connection `c2` closes exactly the one previous connection `c`, and
afterwards exactly one connection — the new one — is registered under the
pair's key. -/
theorem join_idempotent_replace (userID device : String) (c c2 : Nat)
    (reg : Registry) (hnd : (reg.map Prod.fst).Nodup)
    (hmem : (userID ++ device, c) ∈ reg) :
    (userDeviceJoin userID device c2 reg).2 = [c] ∧
      (userDeviceJoin userID device c2 reg).1.filter
          (fun p => p.1 = userID ++ device) =
        [(userID ++ device, c2)] := by
  constructor
  · have := filter_key_of_nodup reg (userID ++ device) c hnd hmem
    simp [userDeviceJoin, this]
  · simp only [userDeviceJoin, List.filter_append, filter_ne_then_eq]
    simp [List.filter_cons]

/-- Witness for C2: registry `[("ud", 5)]`, joining `("u", "d")` with
connection `7`. -/
theorem join_idempotent_replace_witness :
    (((([("ud", 5)] : Registry).map Prod.fst).Nodup ∧
        ("u" ++ "d", 5) ∈ ([("ud", 5)] : Registry)) ∧
      (userDeviceJoin "u" "d" 7 [("ud", 5)]).2 = [5] ∧
        (userDeviceJoin "u" "d" 7 [("ud", 5)]).1.filter
            (fun p => p.1 = "u" ++ "d") =
          [("u" ++ "d", 7)]) :=
  ⟨⟨by decide, by decide⟩,
    join_idempotent_replace "u" "d" 5 7 [("ud", 5)] (by decide) (by decide)⟩

/-- Claim C9: pool release is dead code on the delivery path.  For every
read-outcome trace, the handler's effect trace contains no pool release,
and the pool free list after any handler run is a sublist of the one
before it (objects are only ever taken, never returned); the dispatcher
embedding (`messageDispatcherStep`) does not touch the pool at all, as
`messageDispatcher` in the source never references `messageBuf`. -/
theorem pool_release_never_invoked (N : Nat) (userID device : String)
    (reads : List ReadResult) (pool : List Message) :
    (handlerRun N userID device reads).count HEffect.put = 0 ∧
      (handlerRunPool reads pool).Sublist pool := by
  constructor
  · rw [List.count_eq_zero]
    induction reads with
    | nil => simp [handlerRun]
    | cons hd tl ih =>
      cases hd with
      | err => simp [handlerRun]
      | ok m =>
        simp only [handlerRun, List.mem_cons, List.mem_append]
        rintro (h | h | h)
        · cases h
        · rcases List.mem_map.mp h with ⟨s, _, hs⟩
          cases hs
        · exact ih h
  · induction reads generalizing pool with
    | nil => exact List.Sublist.refl pool
    | cons hd tl ih =>
      cases hd with
      | err =>
        cases pool with
        | nil => exact List.Sublist.refl []
        | cons m rest => simp [handlerRunPool, getMessageFromPool]
      | ok m =>
        cases pool with
        | nil => simpa [handlerRunPool, getMessageFromPool] using ih []
        | cons m0 rest =>
          have := ih rest
          simp only [handlerRunPool, getMessageFromPool]
          exact this.trans (List.sublist_cons_self m0 rest)

/-- Claim C10: registry key collision in the copy-on-write variant.  For
any two distinct pairs whose concatenations coincide (such as
`("ab", "c")` and `("a", "bc")`), the registry treats them as one entry:
joining the second pair into a registry holding the first closes the
first pair's connection and leaves the single shared entry holding the
second connection, and a dispatcher pass for a message originating from
the first pair skips that shared entry, writing nothing. -/
theorem key_collision_conflates_pairs (u1 d1 u2 d2 : String) (c1 c2 : Nat)
    (m0 : Message) (fail : Nat → Bool) (hne : (u1, d1) ≠ (u2, d2))
    (hk : u1 ++ d1 = u2 ++ d2) :
    (userDeviceJoin u2 d2 c2 (userDeviceJoin u1 d1 c1 []).1).2 = [c1] ∧
      (userDeviceJoin u2 d2 c2 (userDeviceJoin u1 d1 c1 []).1).1 =
        [(u2 ++ d2, c2)] ∧
      (dispatchLoop fail (stamp u1 d1 m0)
        (userDeviceJoin u2 d2 c2 (userDeviceJoin u1 d1 c1 []).1).1).1 =
        [] := by
  refine ⟨?_, ?_, ?_⟩
  · simp [userDeviceJoin, List.filter_cons, hk]
  · simp [userDeviceJoin, List.filter_cons, hk]
  · simp [userDeviceJoin, List.filter_cons, hk, dispatchLoop_eq, stamp]

/-- Witness for C10 at the colliding pairs `("ab", "c")` and
`("a", "bc")`. -/
theorem key_collision_conflates_pairs_witness :
    ((("ab", "c") ≠ ("a", "bc") ∧ "ab" ++ "c" = "a" ++ "bc") ∧
      ((userDeviceJoin "a" "bc" 2 (userDeviceJoin "ab" "c" 1 []).1).2 = [1] ∧
        (userDeviceJoin "a" "bc" 2 (userDeviceJoin "ab" "c" 1 []).1).1 =
          [("a" ++ "bc", 2)] ∧
        (dispatchLoop (fun _ => false) (stamp "ab" "c" newMessage)
          (userDeviceJoin "a" "bc" 2 (userDeviceJoin "ab" "c" 1 []).1).1).1 =
          [])) :=
  ⟨⟨by decide, by decide⟩,
    key_collision_conflates_pairs "ab" "c" "a" "bc" 1 2 newMessage
      (fun _ => false) (by decide) (by decide)⟩

/-- Claim C3: leave-on-read-failure cleanup.  For every read-outcome
trace that contains an error, the handler's effect trace contains the
leave call for its `(userID, device)` exactly once (the deferred cleanup
fires when the loop breaks, and only then).  The v1 leave closes exactly
the connection registered under the pair's key (given the snapshot has
distinct keys) and removes that entry from the stored snapshot.  In the
v0 registry, where a per-user record exists, removing a user's last
device closes its connection and deletes the user's record entirely from
the manager's map. -/
theorem leave_cleanup_on_read_failure (N : Nat) (userID device : String)
    (reads : List ReadResult) (reg : Registry) (c c0 : Nat)
    (users : V0Users) (herr : ReadResult.err ∈ reads)
    (hnd : (reg.map Prod.fst).Nodup) (hmem : (userID ++ device, c) ∈ reg) :
    (handlerRun N userID device reads).count (HEffect.leave userID device)
        = 1 ∧
      (userDeviceLeft userID device reg).2 = [c] ∧
      (userDeviceLeft userID device reg).1.filter
          (fun p => p.1 = userID ++ device) = [] ∧
      (v0DeviceLeft userID device [(device, c0)] users).2 = [c0] ∧
      (v0DeviceLeft userID device [(device, c0)] users).1.filter
          (fun p => p.1 = userID) = [] := by
  refine ⟨?_, ?_, ?_, ?_, ?_⟩
  · induction reads with
    | nil => cases herr
    | cons hd tl ih =>
      cases hd with
      | err => simp [handlerRun, List.count_cons]
      | ok m =>
        have htl : ReadResult.err ∈ tl := by
          rcases List.mem_cons.mp herr with h | h
          · cases h
          · exact h
        have hsends :
            ((routeTargets N userID (stamp userID device m).Receivers).map
              (fun s => HEffect.send s (stamp userID device m))).count
                (HEffect.leave userID device) = 0 := by
          rw [List.count_eq_zero]
          intro hmemb
          rcases List.mem_map.mp hmemb with ⟨s, _, hs⟩
          cases hs
        simp [handlerRun, List.count_cons, List.count_append, hsends,
          ih htl]
  · have := filter_key_of_nodup reg (userID ++ device) c hnd hmem
    simp [userDeviceLeft, this]
  · simp [userDeviceLeft, filter_ne_then_eq]
  · simp [v0DeviceLeft, List.filter_cons]
  · simp only [v0DeviceLeft, List.filter_cons]
    simp only [decide_eq_true_eq, ne_eq, decide_not]
    simp [v0UserLeft, filter_ne_then_eq]

/-- Witness for C3: a two-read trace ending in an error, a v1 registry
holding only `u1/web`, and a v0 manager map holding `u1` with the single
device `web` plus an unrelated user `u2`. -/
theorem leave_cleanup_on_read_failure_witness :
    ((ReadResult.err ∈ [ReadResult.ok newMessage, ReadResult.err] ∧
        ((([("u1web", 4)] : Registry).map Prod.fst).Nodup ∧
          ("u1" ++ "web", 4) ∈ ([("u1web", 4)] : Registry))) ∧
      ((handlerRun 2 "u1" "web" [ReadResult.ok newMessage,
          ReadResult.err]).count (HEffect.leave "u1" "web") = 1 ∧
        (userDeviceLeft "u1" "web" [("u1web", 4)]).2 = [4] ∧
        (userDeviceLeft "u1" "web" [("u1web", 4)]).1.filter
            (fun p => p.1 = "u1" ++ "web") = [] ∧
        (v0DeviceLeft "u1" "web" [("web", 9)]
            [("u1", [("web", 9)]), ("u2", [("web", 3)])]).2 = [9] ∧
        (v0DeviceLeft "u1" "web" [("web", 9)]
            [("u1", [("web", 9)]), ("u2", [("web", 3)])]).1.filter
            (fun p => p.1 = "u1") = [])) :=
  ⟨⟨by decide, by decide, by decide⟩,
    leave_cleanup_on_read_failure 2 "u1" "web"
      [ReadResult.ok newMessage, ReadResult.err] [("u1web", 4)] 4 9
      [("u1", [("web", 9)]), ("u2", [("web", 3)])] (by decide) (by decide)
      (by decide)⟩

/-- Claim C1: fan-out targeting with echo suppression.  In the registry
holding exactly `u1/web` (connection 1), `u1/mobile` (connection 2) and
`u2/web` (connection 3), a message from sender `u1`, originating device
`web`, receivers `["u2"]`, with any payload, timestamp and failure
pattern, is written to `u2/web`'s connection and to `u1/mobile`'s
connection, is not written to `u1/web`'s connection, and no other
connection receives a write — for every shard count `N > 0`, whether or
not `u1` and `u2` hash to the same shard. -/
theorem fanout_echo_suppression (N : Nat) (fail : Nat → Bool) (at0 : Int)
    (payload : Option String) (hN : 0 < N) :
    3 ∈ fanOutConns N fail (c1State N) (c1Message at0 payload) ∧
      2 ∈ fanOutConns N fail (c1State N) (c1Message at0 payload) ∧
      1 ∉ fanOutConns N fail (c1State N) (c1Message at0 payload) ∧
      fanOutConns N fail (c1State N) (c1Message at0 payload) ⊆ [2, 3] := by
  have hsend : (c1Message at0 payload).Sender = "u1" := rfl
  have hrec : (c1Message at0 payload).Receivers = ["u2"] := rfl
  have dB :
      (dispatchLoop fail (c1Message at0 payload)
        [("u1web", 1), ("u1mobile", 2)]).1.map Prod.fst = [2] := rfl
  have dC :
      (dispatchLoop fail (c1Message at0 payload)
        [("u1web", 1), ("u1mobile", 2), ("u2web", 3)]).1.map Prod.fst
        = [2, 3] := rfl
  have dD :
      (dispatchLoop fail (c1Message at0 payload)
        [("u2web", 3)]).1.map Prod.fst = [3] := rfl
  by_cases heq : hashIndex N "u2" = hashIndex N "u1"
  · have sC : c1State N (hashIndex N "u2") =
        [("u1web", 1), ("u1mobile", 2), ("u2web", 3)] := by
      simp [c1State, mgrJoin, heq]
      rfl
    have sC1 : c1State N (hashIndex N "u1") =
        [("u1web", 1), ("u1mobile", 2), ("u2web", 3)] := heq ▸ sC
    have main : fanOutConns N fail (c1State N) (c1Message at0 payload)
        = [2, 3, 2, 3] := by
      simp only [fanOutConns, hsend, hrec, routeTargets, List.map_cons,
        List.map_nil, List.map_append, List.flatten, sC, sC1, dC]
      rfl
    rw [main]
    refine ⟨by decide, by decide, by decide, ?_⟩
    intro a ha
    simp at ha ⊢
    tauto
  · have sD : c1State N (hashIndex N "u2") = [("u2web", 3)] := by
      simp [c1State, mgrJoin, heq]
      rfl
    have sB : c1State N (hashIndex N "u1") =
        [("u1web", 1), ("u1mobile", 2)] := by
      have hne2 : ¬ hashIndex N "u1" = hashIndex N "u2" := fun h =>
        heq h.symm
      simp [c1State, mgrJoin, hne2]
      rfl
    have main : fanOutConns N fail (c1State N) (c1Message at0 payload)
        = [3, 2] := by
      simp only [fanOutConns, hsend, hrec, routeTargets, List.map_cons,
        List.map_nil, List.map_append, List.flatten, sD, sB, dD, dB]
      rfl
    rw [main]
    refine ⟨by decide, by decide, by decide, ?_⟩
    intro a ha
    simp at ha ⊢
    tauto

/-- Witness for C1 at `N = 8` shards (where `u1` and `u2` hash to
different shards), no write failures, zero timestamp and no payload. -/
theorem fanout_echo_suppression_witness :
    ((0 : Nat) < 8 ∧
      (3 ∈ fanOutConns 8 (fun _ => false) (c1State 8)
          (c1Message 0 none) ∧
        2 ∈ fanOutConns 8 (fun _ => false) (c1State 8)
          (c1Message 0 none) ∧
        1 ∉ fanOutConns 8 (fun _ => false) (c1State 8)
          (c1Message 0 none) ∧
        fanOutConns 8 (fun _ => false) (c1State 8) (c1Message 0 none)
          ⊆ [2, 3])) :=
  ⟨by decide,
    fanout_echo_suppression 8 (fun _ => false) 0 none (by decide)⟩

end IM
